import Mathlib

/-!
Verification of the snapshot cache subsystem of the afero-azrblob repository
(src/azrblob_cache.go), shallowly embedded in Lean 4.

The local file system is modelled as a map from paths to file contents, where
a file's content is the list of CSV records it holds (the CSV encode/decode
round trip of the Go standard library is treated as the identity on records).
Transient local I/O faults are injected through explicit fault schedules
(`Nat → Bool`, one per retried call site): invocation `k` of a retried
primitive fails iff the schedule is true at `k`.  Wall-clock time is an
abstract counter in which each remote page fetch advances the clock by one
unit and local operations are instantaneous.
-/

namespace AzrBlob

/-- Constant from azrblob_cache.go: seconds the scheduler sleeps per tick. -/
def secCycleCheckSleep : Nat := 60
/-- Constant from azrblob_cache.go: maximum number of retries for file ops. -/
def maxFileOpRetries : Nat := 10
/-- Constant from azrblob_cache.go: seconds slept between file-op retries. -/
def secFileOpRetrySleep : Nat := 5

/-- One CSV record as written by `update`: (name, size field, modified field). -/
abbrev CsvRec := String × String × String

/-- A cache file's content: its list of CSV records. -/
abbrev FileContent := List CsvRec

/-- The local file system: a map from paths to file contents. -/
def FileSys : Type := String → Option FileContent

/-- Write (create or replace) the file at `p`. -/
def FileSys.set (fs : FileSys) (p : String) (c : FileContent) : FileSys :=
  fun q => if q = p then some c else fs q

/-- Delete the file at `p`. -/
def FileSys.del (fs : FileSys) (p : String) : FileSys :=
  fun q => if q = p then none else fs q

/-- os.Stat succeeds exactly when the file exists (in this model). -/
def FileSys.statOk (fs : FileSys) (p : String) : Bool :=
  (fs p).isSome

/-- The empty file system. -/
def emptyFs : FileSys := fun _ => none

/-- os.Create: creates or truncates the file at `p`. -/
def osCreate (fs : FileSys) (p : String) : FileSys :=
  fs.set p []

/-- os.Rename: moves the file at `a` to `b`; fails when `a` does not exist. -/
def osRename (fs : FileSys) (a b : String) : Except String FileSys :=
  match fs a with
  | none => Except.error ("rename: no such file " ++ a)
  | some c => Except.ok ((fs.del a).set b c)

/-- os.Remove: deletes the file at `p`; fails when it does not exist. -/
def osRemove (fs : FileSys) (p : String) : Except String FileSys :=
  match fs p with
  | none => Except.error ("remove: no such file " ++ p)
  | some _ => Except.ok (fs.del p)

/-- Outcome of a retried operation: how many times the primitive was invoked,
how many seconds were spent sleeping between attempts, and the final result. -/
structure RetryOut (α : Type) where
  calls : Nat
  sleepSec : Nat
  result : Except String α

/-- The retry loop shared by createRetry / openFileRetry / renameRetry /
deleteRetry (azrblob_cache.go).  `fuel` is the number of remaining loop
iterations (`maxAttempts - attempts` in the Go code), `calls` the number of
invocations already made, `cur` the result of the last invocation; each loop
iteration sleeps `secFileOpRetrySleep` seconds and re-invokes the primitive.
`op k` is the result of invocation number `k` (0-based). -/
def retryRun (op : Nat → Except String α) : Nat → Nat → Nat → Except String α → RetryOut α
  | _, calls, sleepSec, Except.ok a => ⟨calls, sleepSec, Except.ok a⟩
  | 0, calls, sleepSec, Except.error e => ⟨calls, sleepSec, Except.error e⟩
  | fuel+1, calls, sleepSec, Except.error _ =>
      retryRun op fuel (calls + 1) (sleepSec + secFileOpRetrySleep) (op calls)

/-- A retried operation: one initial invocation plus at most `maxAttempts`
retries, exactly as the Go `for ...; err != nil && attempts < maxAttempts;
attempts++` loop behaves. -/
def retryOp (op : Nat → Except String α) (maxAttempts : Nat) : RetryOut α :=
  retryRun op maxAttempts 1 0 (op 0)

/-- createRetry (azrblob_cache.go): retried os.Create of the staging file.
`cf k` says whether invocation `k` is hit by a transient fault. -/
def createRetry (cf : Nat → Bool) (fs : FileSys) (p : String) : Except String FileSys :=
  (retryOp (fun k => if cf k then Except.error "create fault" else Except.ok (osCreate fs p))
    maxFileOpRetries).result

/-- openFileRetry (azrblob_cache.go): retried os.Open for reading; on success
yields the opened file's content. -/
def openFileRetry (of : Nat → Bool) (fs : FileSys) (p : String) : Except String FileContent :=
  (retryOp
    (fun k =>
      if of k then Except.error "open fault"
      else match fs p with
        | some c => Except.ok c
        | none => Except.error ("open: no such file " ++ p))
    maxFileOpRetries).result

/-- renameRetry (azrblob_cache.go): retried os.Rename, in state-passing form:
on failure the file system is unchanged. -/
def renameRetry (rf : Nat → Bool) (fs : FileSys) (a b : String) :
    Except String Unit × FileSys :=
  match (retryOp (fun k => if rf k then Except.error "rename fault" else osRename fs a b)
      maxFileOpRetries).result with
  | Except.ok fs2 => (Except.ok (), fs2)
  | Except.error e => (Except.error e, fs)

/-- deleteRetry (azrblob_cache.go): retried os.Remove, in state-passing form. -/
def deleteRetry (df : Nat → Bool) (fs : FileSys) (p : String) :
    Except String Unit × FileSys :=
  match (retryOp (fun k => if df k then Except.error "delete fault" else osRemove fs p)
      maxFileOpRetries).result with
  | Except.ok fs2 => (Except.ok (), fs2)
  | Except.error e => (Except.error e, fs)

/-- ContainerCache (azrblob_cache.go): per-container mutable cache state.
The Azure service handle, context and continuation marker are abstracted away
(the remote listing is passed to `update` as a list of pages), and timestamps
are abstract natural numbers. -/
structure ContainerCache where
  container : String
  cycle : Int
  path : String
  stop : Bool
  updating : Bool
  lastUpdate : Nat
deriving Repr, DecidableEq

/-- The Go zero value of ContainerCache (`var cache ContainerCache`). -/
def emptyCache : ContainerCache :=
  ⟨"", 0, "", false, false, 0⟩

/-- getCacheFilePath: the *current* snapshot file served to readers. -/
def getCacheFilePath (cc : ContainerCache) : String :=
  cc.path ++ "/" ++ "cache-" ++ cc.container ++ ".csv"

/-- getCacheNewFilePath: the *staging* file, named with the refresh's start
timestamp (the Go time format is abstracted to decimal rendering). -/
def getCacheNewFilePath (cc : ContainerCache) (ts : Nat) : String :=
  cc.path ++ "/" ++ "cache-" ++ cc.container ++ "-" ++ toString ts ++ ".csv"

/-- getCacheOldFilePath: the *previous* snapshot retained for rollback. -/
def getCacheOldFilePath (cc : ContainerCache) : String :=
  cc.path ++ "/" ++ "cache-" ++ cc.container ++ "-old.csv"

/-- GetContainerCache (azrblob_cache.go): linear scan of the registry; keeps
the last match in the loop variable and always returns a nil error (modelled
as `none`). -/
def GetContainerCache (registry : List ContainerCache) (container : String) :
    ContainerCache × Option String :=
  (registry.foldl (fun cache c => if c.container = container then c else cache) emptyCache,
    none)

/-- One blob item of a remote listing page: name, ContentLength, and the
already-formatted LastModified text. -/
structure BlobItem where
  name : String
  contentLength : Int
  lastModified : String
deriving Repr, DecidableEq

/-- One page of the remote listing: either a fetch error or a list of items. -/
abbrev Page := Except String (List BlobItem)

/-- The CSV record `update` writes for one blob item. -/
def blobRecord (b : BlobItem) : CsvRec :=
  (b.name, toString b.contentLength, b.lastModified)

/-- The inner record-writing loop of `update` for one page: appends one CSV
record per item to the staging file `fp`; `wf w` injects a csv write error at
global record index `w`. -/
def writeItems (wf : Nat → Bool) (fp : String) :
    FileSys → List BlobItem → Nat → Except String Unit × FileSys × Nat
  | fs, [], w => (Except.ok (), fs, w)
  | fs, b :: bs, w =>
      if wf w then (Except.error "write error", fs, w)
      else writeItems wf fp (fs.set fp ((fs fp).getD [] ++ [blobRecord b])) bs (w + 1)

/-- The page loop of `update` (azrblob_cache.go): fetch one page per
iteration; a fetch error aborts immediately; otherwise the page's items are
appended to the staging file and the marker advances.  Returns the result,
the file system, and the number of page fetches performed. -/
def updateLoop (wf : Nat → Bool) (fp : String) :
    FileSys → List Page → Nat → Nat → Except String Unit × FileSys × Nat
  | fs, [], fetches, _ => (Except.ok (), fs, fetches)
  | fs, p :: ps, fetches, w =>
      match p with
      | Except.error e => (Except.error e, fs, fetches + 1)
      | Except.ok items =>
          match writeItems wf fp fs items w with
          | (Except.error e, fs2, _) => (Except.error e, fs2, fetches + 1)
          | (Except.ok _, fs2, w2) => updateLoop wf fp fs2 ps (fetches + 1) w2

/-- The first statement of `update`: mark the cache as updating. -/
def startUpdate (cc : ContainerCache) : ContainerCache :=
  { cc with updating := true }

/-- Result of one `update` run: the returned error value, the cache state and
file system on return, the number of page fetches made, and the abstract
clock at the end of the page loop (each fetch advances the clock by one). -/
structure UpdateOut where
  res : Except String Unit
  cc : ContainerCache
  fs : FileSys
  fetches : Nat
  endTime : Nat

/-- update (azrblob_cache.go): sets the updating guard (cleared by defer on
every return path), samples `updatedOn` from the clock, creates the staging
file named with that timestamp (with retry), runs the page loop, and on
success assigns `lastUpdate := updatedOn`.  `now` is the clock at cycle
start; `cf`/`wf` are the create/write fault schedules. -/
def update (cc0 : ContainerCache) (fs : FileSys) (cf wf : Nat → Bool)
    (pages : List Page) (now : Nat) : UpdateOut :=
  let cc := startUpdate cc0
  let updatedOn := now
  let fp := getCacheNewFilePath cc updatedOn
  match createRetry cf fs fp with
  | Except.error e => ⟨Except.error e, { cc with updating := false }, fs, 0, now⟩
  | Except.ok fs1 =>
      match updateLoop wf fp fs1 pages 0 0 with
      | (Except.error e, fs2, fetches) =>
          ⟨Except.error e, { cc with updating := false }, fs2, fetches, now + fetches⟩
      | (Except.ok _, fs2, fetches) =>
          ⟨Except.ok (), { cc with lastUpdate := updatedOn, updating := false }, fs2,
            fetches, now + fetches⟩

/-- rollbackOld (azrblob_cache.go): if the previous snapshot exists and the
current one is missing, rename previous back to current (with retry). -/
def rollbackOld (f3 : Nat → Bool) (cc : ContainerCache) (fs : FileSys) :
    Except String Unit × FileSys :=
  let old := getCacheOldFilePath cc
  let cur := getCacheFilePath cc
  if fs.statOk old then
    if fs.statOk cur then (Except.ok (), fs)
    else renameRetry f3 fs old cur
  else (Except.ok (), fs)

/-- renameNew (azrblob_cache.go): promotion.  Checks the staging file (named
with `cc.lastUpdate`) exists; renames current to previous when current
exists; renames staging to current; on failure of that last rename attempts
rollback — if rollback succeeds the promotion error is only logged and `nil`
is returned, if rollback fails its error is returned.  `f1`, `f2`, `f3` are
the fault schedules of the three rename call sites. -/
def renameNew (f1 f2 f3 : Nat → Bool) (cc : ContainerCache) (fs : FileSys) :
    Except String Unit × FileSys :=
  let cur := getCacheFilePath cc
  let stg := getCacheNewFilePath cc cc.lastUpdate
  let old := getCacheOldFilePath cc
  if !fs.statOk stg then (Except.error ("stat: no such file " ++ stg), fs)
  else
    match (if fs.statOk cur then renameRetry f1 fs cur old else (Except.ok (), fs)) with
    | (Except.error e, fs1) => (Except.error e, fs1)
    | (Except.ok _, fs1) =>
        match renameRetry f2 fs1 stg cur with
        | (Except.ok _, fs2) => (Except.ok (), fs2)
        | (Except.error _, fs2) =>
            match rollbackOld f3 cc fs2 with
            | (Except.error re, fs3) => (Except.error re, fs3)
            | (Except.ok _, fs3) => (Except.ok (), fs3)

/-- deleteOld (azrblob_cache.go): prune the previous snapshot if present. -/
def deleteOld (df : Nat → Bool) (cc : ContainerCache) (fs : FileSys) :
    Except String Unit × FileSys :=
  let old := getCacheOldFilePath cc
  if fs.statOk old then deleteRetry df fs old
  else (Except.ok (), fs)

/-- The transient-fault schedules of the six retried call sites of one
refresh cycle. -/
structure FaultSchedule where
  create : Nat → Bool
  write : Nat → Bool
  renCurOld : Nat → Bool
  renStgCur : Nat → Bool
  rollback : Nat → Bool
  delete : Nat → Bool

/-- A fault-free schedule. -/
def noFaults : FaultSchedule :=
  ⟨fun _ => false, fun _ => false, fun _ => false, fun _ => false, fun _ => false,
    fun _ => false⟩

/-- Result of one cycleUpdate run. -/
structure CycleOut where
  res : Except String Unit
  cc : ContainerCache
  fs : FileSys

/-- cycleUpdate (azrblob_cache.go): one refresh cycle — update, then promote
(renameNew), then prune (deleteOld); the first error aborts the cycle. -/
def cycleUpdate (fsch : FaultSchedule) (cc : ContainerCache) (fs : FileSys)
    (pages : List Page) (now : Nat) : CycleOut :=
  let u := update cc fs fsch.create fsch.write pages now
  match u.res with
  | Except.error e => ⟨Except.error e, u.cc, u.fs⟩
  | Except.ok _ =>
      match renameNew fsch.renCurOld fsch.renStgCur fsch.rollback u.cc u.fs with
      | (Except.error e, fs2) => ⟨Except.error e, u.cc, fs2⟩
      | (Except.ok _, fs2) =>
          match deleteOld fsch.delete u.cc fs2 with
          | (r3, fs3) => ⟨r3, u.cc, fs3⟩

/-- One tick decision of the startCycling loop (azrblob_cache.go): a tick
runs cycleUpdate iff the cache is not updating and at least `cycle` minutes
have elapsed since `lastUpdate`. -/
def tickFires (cc : ContainerCache) (now : Nat) : Bool :=
  !cc.updating && decide (cc.cycle ≤ (now : Int) - (cc.lastUpdate : Int))

/-- CreateCache (azrblob_cache.go): per-container initialization config. -/
structure CreateCache where
  Name : String
  Cycle : Int
  Path : String
  AccountName : String
  AccountKey : String
deriving Repr, DecidableEq

/-- The environment one container's initialization runs against: the outcome
of the external shared-key credential construction, the fault schedules of
the retried file operations, the remote listing pages, and the clock. -/
structure Scenario where
  credErr : Option String
  faults : FaultSchedule
  pages : List Page
  now : Nat

/-- initCredentials (azrblob_cache.go): re-checks that account name and key
are non-empty, then builds the Azure credential; the external
NewSharedKeyCredential outcome is supplied by the scenario. -/
def initCredentials (credErr : Option String) (accountName accountKey : String) :
    Except String Unit :=
  if accountName = "" ∨ accountKey = "" then
    Except.error "accountName and accountKey are both required"
  else
    match credErr with
    | some e => Except.error e
    | none => Except.ok ()

/-- Result of createContainerCache: the returned (cache, error) pair, the
registry after the call, and the file system after the call. -/
structure CreateOut where
  res : Except String ContainerCache
  registry : List ContainerCache
  fs : FileSys

/-- createContainerCache (azrblob_cache.go): validates the config (cycle > 0,
non-empty name/account fields, path defaulting to /tmp), builds credentials,
then runs update → renameNew → deleteOld synchronously; only if every step
succeeds is the cache appended to the registry. -/
def createContainerCache (sc : Scenario) (registry : List ContainerCache)
    (fs : FileSys) (container : CreateCache) : CreateOut :=
  if !(0 < container.Cycle) then ⟨Except.error "invalid value for cache cycle", registry, fs⟩
  else if container.Name = "" then
    ⟨Except.error "container name missing from cached container config", registry, fs⟩
  else
    let path := if container.Path = "" then "/tmp" else container.Path
    if container.AccountName = "" then
      ⟨Except.error "accountName not specified", registry, fs⟩
    else if container.AccountKey = "" then
      ⟨Except.error "accountKey not specified", registry, fs⟩
    else
      let cache : ContainerCache :=
        { emptyCache with cycle := container.Cycle, container := container.Name, path := path }
      match initCredentials sc.credErr container.AccountName container.AccountKey with
      | Except.error e => ⟨Except.error e, registry, fs⟩
      | Except.ok _ =>
          let u := update cache fs sc.faults.create sc.faults.write sc.pages sc.now
          match u.res with
          | Except.error e => ⟨Except.error e, registry, u.fs⟩
          | Except.ok _ =>
              match renameNew sc.faults.renCurOld sc.faults.renStgCur sc.faults.rollback
                  u.cc u.fs with
              | (Except.error e, fs2) => ⟨Except.error e, registry, fs2⟩
              | (Except.ok _, fs2) =>
                  match deleteOld sc.faults.delete u.cc fs2 with
                  | (Except.error e, fs3) => ⟨Except.error e, registry, fs3⟩
                  | (Except.ok _, fs3) => ⟨Except.ok u.cc, registry ++ [u.cc], fs3⟩

/-- Result of InitCachedContainers: the returned error (`none` = nil), the
registry, the containers whose startCycling task was launched, and the file
system. -/
structure InitOut where
  res : Option String
  registry : List ContainerCache
  scheduled : List String
  fs : FileSys

/-- InitCachedContainers (azrblob_cache.go): initializes the configs in
order; on the first error it logs and returns that error immediately; each
success launches that container's startCycling goroutine (recorded in
`scheduled`).  `scen` gives each config's environment. -/
def initCachedContainers (scen : CreateCache → Scenario) (registry : List ContainerCache)
    (scheduled : List String) (fs : FileSys) : List CreateCache → InitOut
  | [] => ⟨none, registry, scheduled, fs⟩
  | c :: cs =>
      let o := createContainerCache (scen c) registry fs c
      match o.res with
      | Except.error e => ⟨some e, o.registry, scheduled, o.fs⟩
      | Except.ok cache =>
          initCachedContainers scen o.registry (scheduled ++ [cache.container]) o.fs cs

/-- FileInfo: the directory-entry record the reader produces (fields as in
the repository's FileInfo struct: name, directory flag, size, modTime). -/
structure FileInfo where
  name : String
  directory : Bool
  sizeInBytes : Int
  modTime : Nat
deriving Repr, DecidableEq

/-- Modelled from the spec: NewFileInfo, whose definition is not under src/
(only its call sites and the FileInfo field assignments are) — "matching
entries converted to directory-entry records (name, size, is-directory =
false, modification time)". -/
def NewFileInfo (name : String) (directory : Bool) (size : Int) (modified : Nat) :
    FileInfo :=
  ⟨name, directory, size, modified⟩

/-- strings.HasPrefix, at the level of character sequences (UTF-8 byte order
and codepoint order agree, so this matches Go's byte-wise check). -/
def hasPrefix (p s : String) : Bool :=
  p.data.isPrefixOf s.data

/-- The record loop of ReadCache (azrblob_cache.go): per record, first the
limit check (`n > 0 && count > n` breaks), then the two name filters, then
size and timestamp parsing (a parse failure fails the query), then append.
`pi` is the external strconv.ParseInt, `pt` the external time.Parse on the
fixed format, `count` the number of results collected so far. -/
def rcLoop (pi : String → Option Int) (pt : String → Option Nat) (pre cursor : String)
    (n : Int) : List CsvRec → Nat → Except String (List FileInfo)
  | [], _ => Except.ok []
  | r :: rs, count =>
      if 0 < n ∧ n < (count : Int) then Except.ok []
      else if pre ≠ "" ∧ hasPrefix pre r.1 = false then rcLoop pi pt pre cursor n rs count
      else if cursor ≠ "" ∧ ¬(cursor < r.1) then rcLoop pi pt pre cursor n rs count
      else
        match pi r.2.1 with
        | none => Except.error "parse size"
        | some sz =>
            match pt r.2.2 with
            | none => Except.error "parse time"
            | some t =>
                (rcLoop pi pt pre cursor n rs (count + 1)).map
                  (fun l => NewFileInfo r.1 false sz t :: l)

/-- ReadCache (azrblob_cache.go): fails if the current snapshot file is
missing, opens it with retry (`of` is that call site's fault schedule), and
runs the record loop with prefix `pre`, cursor `lastListing` and limit `n`. -/
def ReadCache (of : Nat → Bool) (pi : String → Option Int) (pt : String → Option Nat)
    (cc : ContainerCache) (fs : FileSys) (pre lastListing : String) (n : Int) :
    Except String (List FileInfo) :=
  let cur := getCacheFilePath cc
  if !fs.statOk cur then Except.error ("stat: no such file " ++ cur)
  else
    match openFileRetry of fs cur with
    | Except.error e => Except.error e
    | Except.ok content => rcLoop pi pt pre lastListing n content 0

/-- Spec-side filter: a record is kept iff its name starts with the prefix
(applied only when the prefix is non-empty) and is strictly greater than the
cursor (applied only when the cursor is non-empty). -/
def keepRec (pre cursor name : String) : Bool :=
  (pre == "" || hasPrefix pre name) && (cursor == "" || decide (cursor < name))

/-- The FileInfo a well-formed record converts to. -/
def recFileInfo (pi : String → Option Int) (pt : String → Option Nat) (r : CsvRec) :
    FileInfo :=
  NewFileInfo r.1 false ((pi r.2.1).getD 0) ((pt r.2.2).getD 0)

/-- Spec-side result: the matching records of the file, in file order,
converted to FileInfo. -/
def matchedFI (pi : String → Option Int) (pt : String → Option Nat) (pre cursor : String)
    (content : FileContent) : List FileInfo :=
  (content.filter fun r => keepRec pre cursor r.1).map (recFileInfo pi pt)

/-- Every record of the content parses (size and timestamp). -/
def parsesOk (pi : String → Option Int) (pt : String → Option Nat)
    (content : FileContent) : Bool :=
  content.all fun r => (pi r.2.1).isSome && (pt r.2.2).isSome

/-- A fault schedule that never fires. -/
def noFault : Nat → Bool := fun _ => false

/-- A fault schedule that fires on every invocation. -/
def allFault : Nat → Bool := fun _ => true

/-- A concrete timestamp parser for witnesses. -/
def pt0 : String → Option Nat := fun _ => some 0

/-- A concrete size parser for witnesses. -/
def pi0 : String → Option Int := fun _ => some 1

/-- A file system holding exactly one file. -/
def fsWith (p : String) (c : FileContent) : FileSys :=
  fun q => if q = p then some c else none

/-- A file system holding exactly two files. -/
def fs2With (p1 : String) (c1 : FileContent) (p2 : String) (c2 : FileContent) : FileSys :=
  fun q => if q = p1 then some c1 else if q = p2 then some c2 else none

/-- A concrete cache for witnesses. -/
def cc0 : ContainerCache := ⟨"c", 1, "/tmp", false, false, 0⟩

/-- A benign environment: credentials succeed, no transient faults, one empty
remote page, clock at 0. -/
def tameScenario : Scenario := ⟨none, noFaults, [Except.ok []], 0⟩

/-- Every container gets the benign environment. -/
def scen0 : CreateCache → Scenario := fun _ => tameScenario

/-- A config that fails validation (empty container name). -/
def badCfg : CreateCache := ⟨"", 1, "/tmp", "acct", "key"⟩

/-- A config whose initialization succeeds under `tameScenario`. -/
def goodCfg : CreateCache := ⟨"g", 1, "/tmp", "acct", "key"⟩

/- ------------------------------------------------------------------ -/
/- Theorems                                                           -/
/- ------------------------------------------------------------------ -/

theorem retryRun_ok (op : Nat → Except String α) (fuel calls sleepSec : Nat) (a : α) :
    retryRun op fuel calls sleepSec (Except.ok a) = ⟨calls, sleepSec, Except.ok a⟩ := by
  cases fuel <;> rfl

theorem retryRun_err_succ (op : Nat → Except String α) (fuel calls sleepSec : Nat)
    (e : String) :
    retryRun op (fuel + 1) calls sleepSec (Except.error e) =
      retryRun op fuel (calls + 1) (sleepSec + secFileOpRetrySleep) (op calls) := rfl

theorem retryRun_allErr (op : Nat → Except String α) :
    ∀ (fuel calls sleepSec : Nat) (e : String),
      (∀ j, j < fuel → ∃ e2, op (calls + j) = Except.error e2) →
      retryRun op fuel calls sleepSec (Except.error e) =
        ⟨calls + fuel, sleepSec + fuel * secFileOpRetrySleep,
          if fuel = 0 then Except.error e else op (calls + fuel - 1)⟩ := by
  intro fuel
  induction fuel with
  | zero =>
      intro calls sleepSec e _
      simp [retryRun]
  | succ n ih =>
      intro calls sleepSec e h
      obtain ⟨e2, he2⟩ := h 0 (Nat.succ_pos n)
      rw [Nat.add_zero] at he2
      rw [retryRun_err_succ, he2,
        ih (calls + 1) (sleepSec + secFileOpRetrySleep) e2
          (fun j hj => by
            have h2 := h (j + 1) (by omega)
            rwa [show calls + (j + 1) = calls + 1 + j by omega] at h2)]
      rcases Nat.eq_zero_or_pos n with hn | hn
      · subst hn
        simp [he2, secFileOpRetrySleep]
      · have hne : ¬ n + 1 = 0 := by omega
        simp only [if_neg (by omega : ¬ n = 0), if_neg hne]
        have harith : calls + 1 + n - 1 = calls + (n + 1) - 1 := by omega
        rw [harith]
        have harith2 : calls + 1 + n = calls + (n + 1) := by omega
        have harith3 : sleepSec + secFileOpRetrySleep + n * secFileOpRetrySleep =
            sleepSec + (n + 1) * secFileOpRetrySleep := by
          simp [secFileOpRetrySleep]; omega
        rw [harith2, harith3]

theorem retryRun_firstOk (op : Nat → Except String α) (a : α) :
    ∀ (d fuel calls sleepSec : Nat) (e : String),
      d < fuel →
      (∀ j, j < d → ∃ e2, op (calls + j) = Except.error e2) →
      op (calls + d) = Except.ok a →
      retryRun op fuel calls sleepSec (Except.error e) =
        ⟨calls + d + 1, sleepSec + (d + 1) * secFileOpRetrySleep, Except.ok a⟩ := by
  intro d
  induction d with
  | zero =>
      intro fuel calls sleepSec e hf _ hok
      cases fuel with
      | zero => exact absurd hf (by omega)
      | succ m =>
          rw [Nat.add_zero] at hok
          rw [retryRun_err_succ, hok, retryRun_ok]
          simp [secFileOpRetrySleep]
  | succ k ih =>
      intro fuel calls sleepSec e hf hj hok
      cases fuel with
      | zero => exact absurd hf (by omega)
      | succ m =>
          obtain ⟨e2, he2⟩ := hj 0 (Nat.succ_pos k)
          rw [Nat.add_zero] at he2
          rw [retryRun_err_succ, he2,
            ih m (calls + 1) (sleepSec + secFileOpRetrySleep) e2 (by omega)
              (fun j hjk => by
                have h2 := hj (j + 1) (by omega)
                rwa [show calls + (j + 1) = calls + 1 + j by omega] at h2)
              (by rwa [show calls + 1 + k = calls + (k + 1) by omega])]
          have harith : calls + 1 + k + 1 = calls + (k + 1) + 1 := by omega
          have harith2 : sleepSec + secFileOpRetrySleep + (k + 1) * secFileOpRetrySleep =
              sleepSec + (k + 1 + 1) * secFileOpRetrySleep := by
            simp [secFileOpRetrySleep]; omega
          rw [harith, harith2]

/-- C4 counterexample: a primitive that fails on every invocation is invoked
11 times, not `maxAttempts` (10) times, because the Go loop makes one initial
call before counting `maxAttempts` retries. -/
theorem C4_retry_counterexample :
    (retryOp (fun _ => (Except.error "disk fault" : Except String Unit))
        maxFileOpRetries).calls ≠ maxFileOpRetries := by
  decide

/-- C4 (amended): a retried file operation whose primitive fails on every
invocation makes exactly `maxAttempts + 1` (11) invocations in total — the
initial attempt plus `maxAttempts` retries — sleeping the fixed delay (5s)
between consecutive attempts (`maxAttempts` sleeps in total), and returns the
error of the last invocation; if the first success is at invocation `k0`
(zero-based, within the retry budget), the wrapper returns that success
immediately after `k0 + 1` invocations. -/
theorem C4_retry_amended :
    (∀ (op : Nat → Except String Unit),
        (∀ k, k ≤ maxFileOpRetries → ∃ e, op k = Except.error e) →
        (retryOp op maxFileOpRetries).calls = maxFileOpRetries + 1 ∧
        (retryOp op maxFileOpRetries).sleepSec = maxFileOpRetries * secFileOpRetrySleep ∧
        (retryOp op maxFileOpRetries).result = op maxFileOpRetries) ∧
    (∀ (op : Nat → Except String Unit) (k0 : Nat) (a : Unit),
        k0 ≤ maxFileOpRetries →
        (∀ j, j < k0 → ∃ e, op j = Except.error e) →
        op k0 = Except.ok a →
        (retryOp op maxFileOpRetries).calls = k0 + 1 ∧
        (retryOp op maxFileOpRetries).result = Except.ok a) := by
  constructor
  · intro op h
    obtain ⟨e0, he0⟩ := h 0 (by omega)
    have hrun := retryRun_allErr op maxFileOpRetries 1 0 e0
      (fun j hj => by
        have h2 := h (1 + j) (by simp [maxFileOpRetries] at hj ⊢; omega)
        exact h2)
    rw [retryOp, he0, hrun]
    refine ⟨?_, ?_, ?_⟩
    · show 1 + maxFileOpRetries = maxFileOpRetries + 1
      omega
    · show 0 + maxFileOpRetries * secFileOpRetrySleep = maxFileOpRetries * secFileOpRetrySleep
      omega
    · show (if maxFileOpRetries = 0 then Except.error e0 else op (1 + maxFileOpRetries - 1)) =
        op maxFileOpRetries
      norm_num [maxFileOpRetries]
  · intro op k0 a hk0 hj hok
    cases k0 with
    | zero =>
        rw [retryOp, hok, retryRun_ok]
        exact ⟨rfl, rfl⟩
    | succ k =>
        obtain ⟨e0, he0⟩ := hj 0 (Nat.succ_pos k)
        have hrun := retryRun_firstOk op a k maxFileOpRetries 1 0 e0
          (by simp [maxFileOpRetries] at hk0 ⊢; omega)
          (fun j hjk => by
            have h2 := hj (j + 1) (by omega)
            rwa [show j + 1 = 1 + j by omega] at h2)
          (by rwa [show 1 + k = k + 1 by omega])
        rw [retryOp, he0, hrun]
        constructor
        · show 1 + k + 1 = k + 1 + 1
          omega
        · rfl

theorem retryOp_const (op : Nat → Except String α) (r : Except String α) (m : Nat)
    (h : ∀ k, op k = r) : (retryOp op m).result = r := by
  match hr : r with
  | Except.ok a => rw [retryOp, h 0, retryRun_ok]
  | Except.error e =>
      have aux : ∀ fuel calls s,
          (retryRun op fuel calls s (Except.error e)).result = Except.error e := by
        intro fuel
        induction fuel with
        | zero => intro calls s; rfl
        | succ n ih =>
            intro calls s
            rw [retryRun_err_succ, h calls]
            exact ih _ _
      rw [retryOp, h 0]
      exact aux _ _ _

theorem renameRetry_noFault (fs : FileSys) (a b : String) :
    renameRetry noFault fs a b =
      (match osRename fs a b with
        | Except.ok fs2 => (Except.ok (), fs2)
        | Except.error e => (Except.error e, fs)) := by
  have h := retryOp_const
    (fun k => if noFault k then Except.error "rename fault" else osRename fs a b)
    (osRename fs a b) maxFileOpRetries (fun k => by simp [noFault])
  unfold renameRetry
  rw [h]

theorem renameRetry_allFault (fs : FileSys) (a b : String) :
    renameRetry allFault fs a b = (Except.error "rename fault", fs) := by
  have h := retryOp_const
    (fun k => if allFault k then Except.error "rename fault" else osRename fs a b)
    (Except.error "rename fault") maxFileOpRetries (fun k => by simp [allFault])
  unfold renameRetry
  rw [h]

theorem curPath_ne_oldPath (cc : ContainerCache) :
    getCacheFilePath cc ≠ getCacheOldFilePath cc := by
  intro h
  rw [getCacheFilePath, getCacheOldFilePath] at h
  have hl := congrArg String.length h
  simp only [String.length_append] at hl
  have e1 : (".csv" : String).length = 4 := rfl
  have e2 : ("-old.csv" : String).length = 8 := rfl
  rw [e1, e2] at hl
  omega

/-- C4 witness: the two parts of the amended retry contract at concrete
operations — an always-failing one makes 11 calls, an immediately-succeeding
one makes a single call. -/
theorem C4_retry_amended_witness :
    (retryOp (fun _ => (Except.error "disk fault" : Except String Unit))
        maxFileOpRetries).calls = 11 ∧
    (retryOp (fun _ => (Except.ok () : Except String Unit)) maxFileOpRetries).calls = 1 := by
  have h := C4_retry_amended
  constructor
  · have h1 := (h.1 (fun _ => Except.error "disk fault") (fun k _ => ⟨"disk fault", rfl⟩)).1
    simpa [maxFileOpRetries] using h1
  · exact (h.2 (fun _ => Except.ok ()) 0 () (by simp [maxFileOpRetries])
      (fun j hj => absurd hj (by omega)) rfl).1

/-- C1: in a refresh cycle where the pre-refresh current snapshot (content
`c`) was renamed to previous and the staging→current rename then fails on
every retry, a successful rollback (previous exists, current is missing, and
the rename of previous back to current succeeds) makes renameNew return no
error — the promotion error is only logged — with the current file again
holding the pre-refresh content `c`; if the rollback rename also fails on
every retry, renameNew returns an error. -/
theorem C1_renameNew_rollback (cc : ContainerCache) (fs : FileSys) (c s : FileContent)
    (hcur : fs (getCacheFilePath cc) = some c)
    (hstg : fs (getCacheNewFilePath cc cc.lastUpdate) = some s) :
    (renameNew noFault allFault noFault cc fs).1 = Except.ok () ∧
    (renameNew noFault allFault noFault cc fs).2 (getCacheFilePath cc) = some c ∧
    (∃ e, (renameNew noFault allFault allFault cc fs).1 = Except.error e) := by
  have hneq := curPath_ne_oldPath cc
  have hstat_stg : fs.statOk (getCacheNewFilePath cc cc.lastUpdate) = true := by
    simp [FileSys.statOk, hstg]
  have hstat_cur : fs.statOk (getCacheFilePath cc) = true := by
    simp [FileSys.statOk, hcur]
  have hos1 : osRename fs (getCacheFilePath cc) (getCacheOldFilePath cc) =
      Except.ok ((fs.del (getCacheFilePath cc)).set (getCacheOldFilePath cc) c) := by
    simp [osRename, hcur]
  have hr1 : renameRetry noFault fs (getCacheFilePath cc) (getCacheOldFilePath cc) =
      (Except.ok (), (fs.del (getCacheFilePath cc)).set (getCacheOldFilePath cc) c) := by
    rw [renameRetry_noFault, hos1]
  set fs1 : FileSys := (fs.del (getCacheFilePath cc)).set (getCacheOldFilePath cc) c
    with hfs1
  have h1old : fs1 (getCacheOldFilePath cc) = some c := by
    simp [hfs1, FileSys.set]
  have h1cur : fs1 (getCacheFilePath cc) = none := by
    simp [hfs1, FileSys.set, FileSys.del, hneq]
  have hos2 : osRename fs1 (getCacheOldFilePath cc) (getCacheFilePath cc) =
      Except.ok ((fs1.del (getCacheOldFilePath cc)).set (getCacheFilePath cc) c) := by
    simp [osRename, h1old]
  have hr3 : renameRetry noFault fs1 (getCacheOldFilePath cc) (getCacheFilePath cc) =
      (Except.ok (), (fs1.del (getCacheOldFilePath cc)).set (getCacheFilePath cc) c) := by
    rw [renameRetry_noFault, hos2]
  have hroll : rollbackOld noFault cc fs1 =
      (Except.ok (), (fs1.del (getCacheOldFilePath cc)).set (getCacheFilePath cc) c) := by
    simp only [rollbackOld, FileSys.statOk, h1old, h1cur, Option.isSome_some,
      Option.isSome_none, if_true, Bool.false_eq_true, if_false, hr3]
  have hrollBad : rollbackOld allFault cc fs1 = (Except.error "rename fault", fs1) := by
    simp only [rollbackOld, FileSys.statOk, h1old, h1cur, Option.isSome_some,
      Option.isSome_none, if_true, Bool.false_eq_true, if_false, renameRetry_allFault]
  have hmain : renameNew noFault allFault noFault cc fs =
      (Except.ok (), (fs1.del (getCacheOldFilePath cc)).set (getCacheFilePath cc) c) := by
    simp only [renameNew, hstat_stg, hstat_cur, Bool.not_true, Bool.false_eq_true,
      if_false, if_true, hr1, renameRetry_allFault, hroll]
  have hmainBad : renameNew noFault allFault allFault cc fs =
      (Except.error "rename fault", fs1) := by
    simp only [renameNew, hstat_stg, hstat_cur, Bool.not_true, Bool.false_eq_true,
      if_false, if_true, hr1, renameRetry_allFault, hrollBad]
  refine ⟨by rw [hmain], ?_, ⟨"rename fault", by rw [hmainBad]⟩⟩
  rw [hmain]
  simp [FileSys.set]

/-- C1 witness: the rollback scenario at a concrete cache and file system. -/
theorem C1_renameNew_rollback_witness :
    (renameNew noFault allFault noFault cc0
        (fs2With "/tmp/cache-c.csv" [("a", "1", "t")] "/tmp/cache-c-0.csv"
          [("b", "2", "t")])).1 = Except.ok () ∧
    (renameNew noFault allFault noFault cc0
        (fs2With "/tmp/cache-c.csv" [("a", "1", "t")] "/tmp/cache-c-0.csv"
          [("b", "2", "t")])).2 (getCacheFilePath cc0) = some [("a", "1", "t")] ∧
    (∃ e, (renameNew noFault allFault allFault cc0
        (fs2With "/tmp/cache-c.csv" [("a", "1", "t")] "/tmp/cache-c-0.csv"
          [("b", "2", "t")])).1 = Except.error e) :=
  C1_renameNew_rollback cc0
    (fs2With "/tmp/cache-c.csv" [("a", "1", "t")] "/tmp/cache-c-0.csv" [("b", "2", "t")])
    [("a", "1", "t")] [("b", "2", "t")] (by decide) (by decide)

theorem foldl_lastMatch (name : String) :
    ∀ (reg : List ContainerCache) (init : ContainerCache),
      reg.foldl (fun cache c => if c.container = name then c else cache) init =
        (reg.filter fun c => c.container == name).getLastD init := by
  intro reg
  induction reg with
  | nil => intro init; rfl
  | cons c cs ih =>
      intro init
      rw [List.foldl_cons]
      by_cases h : c.container = name
      · rw [if_pos h, ih c, List.filter_cons_of_pos (by simp [h]), List.getLastD_cons]
      · rw [if_neg h, ih init, List.filter_cons_of_neg (by simp [h])]

/-- C7 counterexample: looking up a container that was never registered does
not produce a not-found error — GetContainerCache returns a nil error and the
zero-value ContainerCache. -/
theorem C7_lookup_counterexample :
    (GetContainerCache [] "missing").2 = none ∧
    (GetContainerCache [] "missing").1 = emptyCache := by
  decide

/-- C7 (amended): GetContainerCache performs a linear scan and returns the
cache registered last under the requested name when one exists, and the
zero-value ContainerCache when none exists; in every case the returned error
is nil — no not-found condition is ever reported. -/
theorem C7_lookup_amended (registry : List ContainerCache) (container : String) :
    GetContainerCache registry container =
      ((registry.filter fun c => c.container == container).getLastD emptyCache, none) := by
  rw [GetContainerCache, foldl_lastMatch]

theorem createCC_registry_spec (sc : Scenario) (reg : List ContainerCache) (fs : FileSys)
    (c : CreateCache) :
    ((∃ e, (createContainerCache sc reg fs c).res = Except.error e) ∧
      (createContainerCache sc reg fs c).registry = reg) ∨
    (∃ cache, (createContainerCache sc reg fs c).res = Except.ok cache ∧
      (createContainerCache sc reg fs c).registry = reg ++ [cache]) := by
  dsimp only [createContainerCache]
  repeat' split
  all_goals first
    | exact Or.inl ⟨⟨_, rfl⟩, rfl⟩
    | exact Or.inr ⟨_, rfl, rfl⟩

theorem createCC_err_registry (sc : Scenario) (reg : List ContainerCache) (fs : FileSys)
    (c : CreateCache) (e : String)
    (h : (createContainerCache sc reg fs c).res = Except.error e) :
    (createContainerCache sc reg fs c).registry = reg := by
  rcases createCC_registry_spec sc reg fs c with ⟨_, hr⟩ | ⟨cache, hok, _⟩
  · exact hr
  · rw [hok] at h
    exact absurd h (by simp)

theorem initCC_append (scen : CreateCache → Scenario) :
    ∀ (pre : List CreateCache) (reg : List ContainerCache) (sched : List String)
      (fs : FileSys) (rest : List CreateCache),
      (initCachedContainers scen reg sched fs pre).res = none →
      initCachedContainers scen reg sched fs (pre ++ rest) =
        initCachedContainers scen (initCachedContainers scen reg sched fs pre).registry
          (initCachedContainers scen reg sched fs pre).scheduled
          (initCachedContainers scen reg sched fs pre).fs rest := by
  intro pre
  induction pre with
  | nil => intro reg sched fs rest _; rfl
  | cons c cs ih =>
      intro reg sched fs rest h
      rcases hc : (createContainerCache (scen c) reg fs c).res with e | cache
      · rw [initCachedContainers] at h
        simp only [hc] at h
        exact absurd h (by simp)
      · rw [List.cons_append, initCachedContainers, initCachedContainers]
        simp only [hc]
        rw [initCachedContainers] at h
        simp only [hc] at h
        exact ih _ _ _ rest h

/-- C6 counterexample: with a failing config followed by a config that would
succeed on its own (shown by running it alone), InitCachedContainers returns
the error and the second container is neither initialized, nor registered,
nor scheduled — the failure does abort the other containers in the list. -/
theorem C6_init_counterexample :
    (initCachedContainers scen0 [] [] emptyFs [badCfg, goodCfg]).res ≠ none ∧
    (initCachedContainers scen0 [] [] emptyFs [badCfg, goodCfg]).registry = [] ∧
    (initCachedContainers scen0 [] [] emptyFs [badCfg, goodCfg]).scheduled = [] ∧
    (initCachedContainers scen0 [] [] emptyFs [goodCfg]).res = none ∧
    (initCachedContainers scen0 [] [] emptyFs [goodCfg]).scheduled = ["g"] := by
  decide

/-- C6 (amended): a configuration or initialization error on one container is
fatal to that container — it is never registered or scheduled — and
InitCachedContainers returns the error immediately: containers earlier in the
list that succeeded remain registered and scheduled, but the containers after
the failing one are not initialized at all. -/
theorem C6_init_amended (scen : CreateCache → Scenario) (reg : List ContainerCache)
    (sched : List String) (fs : FileSys) (pre : List CreateCache) (c : CreateCache)
    (rest : List CreateCache) (e : String)
    (hpre : (initCachedContainers scen reg sched fs pre).res = none)
    (hc : (createContainerCache (scen c)
        (initCachedContainers scen reg sched fs pre).registry
        (initCachedContainers scen reg sched fs pre).fs c).res = Except.error e) :
    (initCachedContainers scen reg sched fs (pre ++ c :: rest)).res = some e ∧
    (initCachedContainers scen reg sched fs (pre ++ c :: rest)).registry =
      (initCachedContainers scen reg sched fs pre).registry ∧
    (initCachedContainers scen reg sched fs (pre ++ c :: rest)).scheduled =
      (initCachedContainers scen reg sched fs pre).scheduled := by
  rw [initCC_append scen pre reg sched fs (c :: rest) hpre]
  rw [initCachedContainers]
  refine ⟨?_, ?_, ?_⟩ <;> simp only [hc]
  exact createCC_err_registry _ _ _ _ _ hc

/-- C6 witness: the amended statement at the concrete failing-then-good
configuration list. -/
theorem C6_init_amended_witness :
    (initCachedContainers scen0 [] [] emptyFs ([] ++ badCfg :: [goodCfg])).res =
      some "container name missing from cached container config" ∧
    (initCachedContainers scen0 [] [] emptyFs ([] ++ badCfg :: [goodCfg])).registry =
      (initCachedContainers scen0 [] [] emptyFs []).registry ∧
    (initCachedContainers scen0 [] [] emptyFs ([] ++ badCfg :: [goodCfg])).scheduled =
      (initCachedContainers scen0 [] [] emptyFs []).scheduled :=
  C6_init_amended scen0 [] [] emptyFs [] badCfg [goodCfg]
    "container name missing from cached container config" rfl rfl

theorem createRetry_ok (cf : Nat → Bool) (hcf : ∀ k, cf k = false) (fs : FileSys)
    (p : String) : createRetry cf fs p = Except.ok (osCreate fs p) := by
  have h := retryOp_const
    (fun k => if cf k then Except.error "create fault" else Except.ok (osCreate fs p))
    (Except.ok (osCreate fs p)) maxFileOpRetries (fun k => by simp [hcf k])
  rw [createRetry, h]

theorem writeItems_ok (wf : Nat → Bool) (hwf : ∀ k, wf k = false) (fp : String) :
    ∀ (items : List BlobItem) (fs : FileSys) (w : Nat),
      (writeItems wf fp fs items w).1 = Except.ok () := by
  intro items
  induction items with
  | nil => intro fs w; rfl
  | cons b bs ih =>
      intro fs w
      rw [writeItems, hwf w]
      simp only [Bool.false_eq_true, if_false]
      exact ih _ _

theorem writeItems_frame (wf : Nat → Bool) (fp : String) :
    ∀ (items : List BlobItem) (fs : FileSys) (w : Nat) (q : String), q ≠ fp →
      (writeItems wf fp fs items w).2.1 q = fs q := by
  intro items
  induction items with
  | nil => intro fs w q _; rfl
  | cons b bs ih =>
      intro fs w q hq
      by_cases hw : wf w = true
      · rw [writeItems, hw]
        simp
      · rw [writeItems, Bool.of_not_eq_true hw]
        simp only [Bool.false_eq_true, if_false]
        rw [ih _ _ _ hq]
        simp [FileSys.set, hq]

theorem updateLoop_errPage (wf : Nat → Bool) (hwf : ∀ k, wf k = false) (fp : String)
    (e : String) (rest : List Page) :
    ∀ (okPages : List (List BlobItem)) (fs : FileSys) (fetches w : Nat),
      (updateLoop wf fp fs (okPages.map Except.ok ++ Except.error e :: rest)
          fetches w).1 = Except.error e ∧
      (updateLoop wf fp fs (okPages.map Except.ok ++ Except.error e :: rest)
          fetches w).2.2 = fetches + okPages.length + 1 ∧
      ∀ q, q ≠ fp →
        (updateLoop wf fp fs (okPages.map Except.ok ++ Except.error e :: rest)
            fetches w).2.1 q = fs q := by
  intro okPages
  induction okPages with
  | nil =>
      intro fs fetches w
      exact ⟨rfl, rfl, fun q _ => rfl⟩
  | cons items ops ih =>
      intro fs fetches w
      have hw1 := writeItems_ok wf hwf fp items fs w
      have hwfr := writeItems_frame wf fp items fs w
      rcases hww : writeItems wf fp fs items w with ⟨r, fs2, w2⟩
      rw [hww] at hw1
      dsimp only at hw1
      subst hw1
      rw [hww] at hwfr
      dsimp only at hwfr
      have hred : updateLoop wf fp fs
          ((items :: ops).map Except.ok ++ Except.error e :: rest) fetches w =
          updateLoop wf fp fs2 (ops.map Except.ok ++ Except.error e :: rest)
            (fetches + 1) w2 := by
        rw [List.map_cons, List.cons_append, updateLoop, hww]
      rw [hred]
      obtain ⟨ha, hb, hframe⟩ := ih fs2 (fetches + 1) w2
      refine ⟨ha, by rw [hb]; simp [List.length_cons]; omega, fun q hq => ?_⟩
      rw [hframe q hq, hwfr q hq]

theorem update_of_loop (cc : ContainerCache) (fs fs1 : FileSys) (cf wf : Nat → Bool)
    (pages : List Page) (now : Nat)
    (hc : createRetry cf fs (getCacheNewFilePath cc now) = Except.ok fs1) :
    update cc fs cf wf pages now =
      (match updateLoop wf (getCacheNewFilePath cc now) fs1 pages 0 0 with
        | (Except.error e, fs2, fetches) =>
            ⟨Except.error e, { cc with updating := false }, fs2, fetches, now + fetches⟩
        | (Except.ok _, fs2, fetches) =>
            ⟨Except.ok (), { cc with updating := false, lastUpdate := now }, fs2, fetches,
              now + fetches⟩) := by
  have hpath : getCacheNewFilePath (startUpdate cc) now = getCacheNewFilePath cc now := rfl
  dsimp only [update]
  rw [hpath, hc]
  dsimp only
  rcases hu : updateLoop wf (getCacheNewFilePath cc now) fs1 pages 0 0 with ⟨r, fs2, f⟩
  cases r <;> rfl

theorem update_cc_spec (cc : ContainerCache) (fs : FileSys) (cf wf : Nat → Bool)
    (pages : List Page) (now : Nat) :
    ((update cc fs cf wf pages now).res = Except.ok () ∧
      (update cc fs cf wf pages now).cc =
        { cc with updating := false, lastUpdate := now }) ∨
    ((∃ e, (update cc fs cf wf pages now).res = Except.error e) ∧
      (update cc fs cf wf pages now).cc = { cc with updating := false }) := by
  dsimp only [update]
  repeat' split
  all_goals first
    | exact Or.inl ⟨rfl, rfl⟩
    | exact Or.inr ⟨⟨_, rfl⟩, rfl⟩

theorem update_endTime (cc : ContainerCache) (fs : FileSys) (cf wf : Nat → Bool)
    (pages : List Page) (now : Nat) :
    (update cc fs cf wf pages now).endTime = now + (update cc fs cf wf pages now).fetches := by
  dsimp only [update]
  repeat' split
  all_goals simp

/-- C5: a remote page-fetch error aborts the refresh cycle immediately — the
fetch is not retried and no further page is requested (the fetch count is
exactly the number of pages up to and including the failing one), the current
snapshot file is untouched (the staging file, which is merely abandoned, is
the only file written), and cycleUpdate returns the fetch error without
running the promote or prune steps. -/
theorem C5_fetchError_aborts (cc : ContainerCache) (fs : FileSys)
    (okPages : List (List BlobItem)) (e : String) (rest : List Page) (now : Nat)
    (hne : getCacheFilePath cc ≠ getCacheNewFilePath cc now) :
    (update cc fs noFault noFault
        (okPages.map Except.ok ++ Except.error e :: rest) now).res = Except.error e ∧
    (update cc fs noFault noFault
        (okPages.map Except.ok ++ Except.error e :: rest) now).fetches =
      okPages.length + 1 ∧
    (update cc fs noFault noFault
        (okPages.map Except.ok ++ Except.error e :: rest) now).fs (getCacheFilePath cc) =
      fs (getCacheFilePath cc) ∧
    cycleUpdate noFaults cc fs (okPages.map Except.ok ++ Except.error e :: rest) now =
      ⟨Except.error e,
        (update cc fs noFault noFault
          (okPages.map Except.ok ++ Except.error e :: rest) now).cc,
        (update cc fs noFault noFault
          (okPages.map Except.ok ++ Except.error e :: rest) now).fs⟩ := by
  have hcr := createRetry_ok noFault (fun _ => rfl) fs (getCacheNewFilePath cc now)
  have hupd := update_of_loop cc fs (osCreate fs (getCacheNewFilePath cc now)) noFault
    noFault (okPages.map Except.ok ++ Except.error e :: rest) now hcr
  obtain ⟨ha, hb, hframe⟩ := updateLoop_errPage noFault (fun _ => rfl)
    (getCacheNewFilePath cc now) e rest okPages
    (osCreate fs (getCacheNewFilePath cc now)) 0 0
  rcases hu : updateLoop noFault (getCacheNewFilePath cc now)
      (osCreate fs (getCacheNewFilePath cc now))
      (okPages.map Except.ok ++ Except.error e :: rest) 0 0 with ⟨r, fs2, f⟩
  rw [hu] at ha hb hframe
  dsimp only at ha hb hframe
  subst ha
  rw [hu] at hupd
  have hres : (update cc fs noFault noFault
      (okPages.map Except.ok ++ Except.error e :: rest) now).res = Except.error e := by
    rw [hupd]
  have hfet : (update cc fs noFault noFault
      (okPages.map Except.ok ++ Except.error e :: rest) now).fetches =
      okPages.length + 1 := by
    rw [hupd]
    dsimp only
    omega
  have hfs : (update cc fs noFault noFault
      (okPages.map Except.ok ++ Except.error e :: rest) now).fs (getCacheFilePath cc) =
      fs (getCacheFilePath cc) := by
    rw [hupd]
    dsimp only
    rw [hframe (getCacheFilePath cc) hne]
    simp [osCreate, FileSys.set, hne]
  refine ⟨hres, hfet, hfs, ?_⟩
  rw [cycleUpdate]
  have hsch : update cc fs noFaults.create noFaults.write
      (okPages.map Except.ok ++ Except.error e :: rest) now =
      update cc fs noFault noFault
        (okPages.map Except.ok ++ Except.error e :: rest) now := rfl
  rw [hsch, hres]

/-- C5 witness: the abort scenario at a concrete cache, a one-page listing
whose only fetch fails. -/
theorem C5_fetchError_aborts_witness :
    (update cc0 emptyFs noFault noFault
        (([] : List (List BlobItem)).map Except.ok ++ Except.error "boom" :: []) 0).res =
      Except.error "boom" ∧
    (update cc0 emptyFs noFault noFault
        (([] : List (List BlobItem)).map Except.ok ++ Except.error "boom" :: []) 0).fetches =
      ([] : List (List BlobItem)).length + 1 ∧
    (update cc0 emptyFs noFault noFault
        (([] : List (List BlobItem)).map Except.ok ++ Except.error "boom" :: []) 0).fs
        (getCacheFilePath cc0) = emptyFs (getCacheFilePath cc0) ∧
    cycleUpdate noFaults cc0 emptyFs
        (([] : List (List BlobItem)).map Except.ok ++ Except.error "boom" :: []) 0 =
      ⟨Except.error "boom",
        (update cc0 emptyFs noFault noFault
          (([] : List (List BlobItem)).map Except.ok ++ Except.error "boom" :: []) 0).cc,
        (update cc0 emptyFs noFault noFault
          (([] : List (List BlobItem)).map Except.ok ++ Except.error "boom" :: []) 0).fs⟩ :=
  C5_fetchError_aborts cc0 emptyFs [] "boom" [] 0 (by decide)

/-- C8 counterexample: in a successful one-page refresh starting at clock 0,
`lastUpdate` is set to 0 — the clock value sampled at the start of the cycle,
before the staging file is even created — while the page loop completes at
clock 1; the recorded timestamp is not the completion time. -/
theorem C8_lastUpdate_counterexample :
    (update cc0 emptyFs noFault noFault [Except.ok []] 0).res = Except.ok () ∧
    (update cc0 emptyFs noFault noFault [Except.ok []] 0).cc.lastUpdate = 0 ∧
    (update cc0 emptyFs noFault noFault [Except.ok []] 0).endTime = 1 ∧
    (update cc0 emptyFs noFault noFault [Except.ok []] 0).cc.lastUpdate ≠
      (update cc0 emptyFs noFault noFault [Except.ok []] 0).endTime := by
  refine ⟨rfl, rfl, rfl, by decide⟩

/-- C8 (amended): on a successful refresh cycle, `lastUpdate` records the
timestamp sampled at the start of the cycle — the same timestamp `updatedOn`
that names the staging file — and the assignment happens only after the final
page has been written; the end of the page loop is `now + fetches` in the
abstract clock, which can differ from the recorded timestamp. -/
theorem C8_lastUpdate_amended (cc : ContainerCache) (fs : FileSys) (cf wf : Nat → Bool)
    (pages : List Page) (now : Nat)
    (h : (update cc fs cf wf pages now).res = Except.ok ()) :
    (update cc fs cf wf pages now).cc.lastUpdate = now ∧
    (update cc fs cf wf pages now).endTime = now + (update cc fs cf wf pages now).fetches := by
  refine ⟨?_, update_endTime cc fs cf wf pages now⟩
  rcases update_cc_spec cc fs cf wf pages now with ⟨_, hcc⟩ | ⟨⟨e, he⟩, _⟩
  · rw [hcc]
  · rw [he] at h
    exact absurd h (by simp)

/-- C8 witness: the amended statement at a concrete successful refresh
starting at clock 7. -/
theorem C8_lastUpdate_amended_witness :
    (update cc0 emptyFs noFault noFault [Except.ok []] 7).cc.lastUpdate = 7 ∧
    (update cc0 emptyFs noFault noFault [Except.ok []] 7).endTime =
      7 + (update cc0 emptyFs noFault noFault [Except.ok []] 7).fetches :=
  C8_lastUpdate_amended cc0 emptyFs noFault noFault [Except.ok []] 7 rfl

/-- C9 counterexample: after a successful update the cycle continues into the
promote and prune steps (cycleUpdate passes `update`'s returned cache state to
renameNew and deleteOld), yet the updating guard is already false at that
point — it was cleared by update's defer, not at the cycle's exit. -/
theorem C9_guard_counterexample :
    (update cc0 emptyFs noFault noFault [Except.ok []] 0).res = Except.ok () ∧
    (update cc0 emptyFs noFault noFault [Except.ok []] 0).cc.updating = false ∧
    (cycleUpdate noFaults cc0 emptyFs [Except.ok []] 0).cc.updating = false := by
  exact ⟨rfl, rfl, rfl⟩

/-- C9 (amended): the updating guard is set to true at the start of `update`
and cleared unconditionally when `update` returns — whether it succeeds or
fails — so the promote (renameNew) and prune (deleteOld) steps of a cycle run
with the guard already cleared; a scheduler tick that observes
`updating = true` performs no work. -/
theorem C9_guard_amended (cc : ContainerCache) (fs : FileSys) (cf wf : Nat → Bool)
    (pages : List Page) (now t : Nat) :
    (startUpdate cc).updating = true ∧
    (update cc fs cf wf pages now).cc.updating = false ∧
    (cc.updating = true → tickFires cc t = false) := by
  refine ⟨rfl, ?_, ?_⟩
  · rcases update_cc_spec cc fs cf wf pages now with ⟨_, hcc⟩ | ⟨_, hcc⟩ <;> rw [hcc]
  · intro h
    simp [tickFires, h]

/-- C9 witness: the amended statement at a concrete cache whose guard is set,
with a concrete tick. -/
theorem C9_guard_amended_witness :
    (startUpdate (startUpdate cc0)).updating = true ∧
    (update (startUpdate cc0) emptyFs noFault noFault [Except.ok []] 0).cc.updating =
      false ∧
    ((startUpdate cc0).updating = true → tickFires (startUpdate cc0) 100 = false) :=
  C9_guard_amended (startUpdate cc0) emptyFs noFault noFault [Except.ok []] 0 100

/-- C10: whenever `update` returns an error — staging-file creation failure,
a page-fetch error, or a record-write error — the in-memory `lastUpdate`
field is left unchanged (it is assigned only after the final page has been
written), so the scheduler's elapsed-time check still measures from the
previous successful refresh and a later tick past the interval fires again. -/
theorem C10_update_frame (cc : ContainerCache) (fs : FileSys) (cf wf : Nat → Bool)
    (pages : List Page) (now : Nat) (e : String)
    (h : (update cc fs cf wf pages now).res = Except.error e) :
    (update cc fs cf wf pages now).cc.lastUpdate = cc.lastUpdate ∧
    ∀ t : Nat, tickFires (update cc fs cf wf pages now).cc t =
      decide (cc.cycle ≤ (t : Int) - (cc.lastUpdate : Int)) := by
  rcases update_cc_spec cc fs cf wf pages now with ⟨hok, _⟩ | ⟨_, hcc⟩
  · rw [h] at hok
    exact absurd hok (by simp)
  · rw [hcc]
    exact ⟨rfl, fun t => by simp [tickFires]⟩

/-- C10 witness: a refresh whose only page fetch fails leaves `lastUpdate`
untouched and the tick decision measuring from the old timestamp. -/
theorem C10_update_frame_witness :
    (update cc0 emptyFs noFault noFault [Except.error "boom"] 5).cc.lastUpdate =
      cc0.lastUpdate ∧
    tickFires (update cc0 emptyFs noFault noFault [Except.error "boom"] 5).cc 9 =
      decide (cc0.cycle ≤ (9 : Int) - (cc0.lastUpdate : Int)) :=
  ⟨(C10_update_frame cc0 emptyFs noFault noFault [Except.error "boom"] 5 "boom" rfl).1,
    (C10_update_frame cc0 emptyFs noFault noFault [Except.error "boom"] 5 "boom" rfl).2 9⟩

theorem openFileRetry_ok (fs : FileSys) (p : String) (content : FileContent)
    (h : fs p = some content) :
    openFileRetry noFault fs p = Except.ok content := by
  have hc := retryOp_const
    (fun k =>
      if noFault k then Except.error "open fault"
      else match fs p with
        | some c => Except.ok c
        | none => Except.error ("open: no such file " ++ p))
    (Except.ok content) maxFileOpRetries (fun k => by simp [noFault, h])
  rw [openFileRetry, hc]

theorem ReadCache_content (pi : String → Option Int) (pt : String → Option Nat)
    (cc : ContainerCache) (fs : FileSys) (pre cursor : String) (n : Int)
    (content : FileContent) (h : fs (getCacheFilePath cc) = some content) :
    ReadCache noFault pi pt cc fs pre cursor n = rcLoop pi pt pre cursor n content 0 := by
  have hstat : fs.statOk (getCacheFilePath cc) = true := by
    simp [FileSys.statOk, h]
  simp [ReadCache, hstat, openFileRetry_ok fs _ content h]

theorem keepRec_false_pre {pre name : String} (h1 : pre ≠ "")
    (h2 : hasPrefix pre name = false) (cursor : String) :
    keepRec pre cursor name = false := by
  simp [keepRec, h1, h2]

theorem keepRec_false_cursor {cursor name : String} (h1 : cursor ≠ "")
    (h2 : ¬ cursor < name) (pre : String) :
    keepRec pre cursor name = false := by
  simp [keepRec, h1, h2]

theorem keepRec_true {pre cursor name : String}
    (h1 : ¬(pre ≠ "" ∧ hasPrefix pre name = false))
    (h2 : ¬(cursor ≠ "" ∧ ¬ cursor < name)) :
    keepRec pre cursor name = true := by
  have ha : (pre == "") = true ∨ hasPrefix pre name = true := by
    by_cases hp : pre = ""
    · exact Or.inl (by simp [hp])
    · refine Or.inr ?_
      by_contra hn
      exact h1 ⟨hp, by simpa using hn⟩
  have hb : (cursor == "") = true ∨ decide (cursor < name) = true := by
    by_cases hcu : cursor = ""
    · exact Or.inl (by simp [hcu])
    · refine Or.inr ?_
      by_contra hn
      exact h2 ⟨hcu, by simpa using hn⟩
  rw [keepRec, Bool.and_eq_true, Bool.or_eq_true, Bool.or_eq_true]
  exact ⟨ha, hb⟩

theorem rcLoop_unbounded (pi : String → Option Int) (pt : String → Option Nat)
    (pre cursor : String) (n : Int) (hn : n ≤ 0) :
    ∀ (content : FileContent) (count : Nat), parsesOk pi pt content = true →
      rcLoop pi pt pre cursor n content count =
        Except.ok (matchedFI pi pt pre cursor content) := by
  intro content
  induction content with
  | nil => intro count _; rfl
  | cons r rs ih =>
      intro count hp
      rw [parsesOk, List.all_cons] at hp
      obtain ⟨hpr, hprs⟩ := Bool.and_eq_true_iff.mp hp
      obtain ⟨hsz0, ht0⟩ := Bool.and_eq_true_iff.mp hpr
      have hprs2 : parsesOk pi pt rs = true := hprs
      simp only [rcLoop]
      rw [if_neg (by omega : ¬(0 < n ∧ n < (count : Int)))]
      by_cases hskip1 : pre ≠ "" ∧ hasPrefix pre r.1 = false
      · have hkeep := keepRec_false_pre hskip1.1 hskip1.2 cursor
        rw [if_pos hskip1, ih count hprs2]
        simp [matchedFI, List.filter_cons, hkeep]
      · rw [if_neg hskip1]
        by_cases hskip2 : cursor ≠ "" ∧ ¬ cursor < r.1
        · have hkeep := keepRec_false_cursor hskip2.1 hskip2.2 pre
          rw [if_pos hskip2, ih count hprs2]
          simp [matchedFI, List.filter_cons, hkeep]
        · have hkeep := keepRec_true hskip1 hskip2
          rw [if_neg hskip2]
          obtain ⟨sz, hsz⟩ := Option.isSome_iff_exists.mp hsz0
          obtain ⟨t, ht⟩ := Option.isSome_iff_exists.mp ht0
          rw [hsz, ht, ih (count + 1) hprs2]
          simp [matchedFI, List.filter_cons, hkeep, recFileInfo, NewFileInfo, hsz, ht,
            Except.map]

theorem rcLoop_bounded (pi : String → Option Int) (pt : String → Option Nat)
    (pre cursor : String) (N : Nat) (hN : 0 < N) :
    ∀ (content : FileContent) (count : Nat), parsesOk pi pt content = true →
      rcLoop pi pt pre cursor (N : Int) content count =
        Except.ok ((matchedFI pi pt pre cursor content).take (N + 1 - count)) := by
  intro content
  induction content with
  | nil => intro count _; simp [rcLoop, matchedFI]
  | cons r rs ih =>
      intro count hp
      rw [parsesOk, List.all_cons] at hp
      obtain ⟨hpr, hprs⟩ := Bool.and_eq_true_iff.mp hp
      obtain ⟨hsz0, ht0⟩ := Bool.and_eq_true_iff.mp hpr
      have hprs2 : parsesOk pi pt rs = true := hprs
      simp only [rcLoop]
      by_cases hbreak : N < count
      · rw [if_pos (by constructor <;> omega)]
        rw [show N + 1 - count = 0 by omega, List.take_zero]
      · rw [if_neg (by omega : ¬(0 < (N : Int) ∧ (N : Int) < (count : Int)))]
        by_cases hskip1 : pre ≠ "" ∧ hasPrefix pre r.1 = false
        · have hkeep := keepRec_false_pre hskip1.1 hskip1.2 cursor
          rw [if_pos hskip1, ih count hprs2]
          simp [matchedFI, List.filter_cons, hkeep]
        · rw [if_neg hskip1]
          by_cases hskip2 : cursor ≠ "" ∧ ¬ cursor < r.1
          · have hkeep := keepRec_false_cursor hskip2.1 hskip2.2 pre
            rw [if_pos hskip2, ih count hprs2]
            simp [matchedFI, List.filter_cons, hkeep]
          · have hkeep := keepRec_true hskip1 hskip2
            rw [if_neg hskip2]
            obtain ⟨sz, hsz⟩ := Option.isSome_iff_exists.mp hsz0
            obtain ⟨t, ht⟩ := Option.isSome_iff_exists.mp ht0
            rw [hsz, ht, ih (count + 1) hprs2]
            have htake : N + 1 - count = (N + 1 - (count + 1)) + 1 := by omega
            rw [htake]
            simp [matchedFI, List.filter_cons, hkeep, List.take_succ_cons,
              recFileInfo, NewFileInfo, hsz, ht, Except.map]

/-- C2: ReadCache applies exactly the two name filters, each only when its
argument is non-empty — keep a record iff its name starts with the prefix
(when the prefix is non-empty) and is lexicographically strictly greater than
the cursor (when the cursor is non-empty) — and, reading unbounded
(`n ≤ 0`, where no limit cuts the scan), returns exactly the matching
records in file order; in particular for entries {a/1, a/2, b/1} a prefix
query "a/" returns exactly {a/1, a/2} wherever they sit in the file. -/
theorem C2_readCache_filters (cc : ContainerCache) (fs : FileSys)
    (pi : String → Option Int) (pt : String → Option Nat) (pre cursor : String)
    (n : Int) (content : FileContent)
    (hfile : fs (getCacheFilePath cc) = some content)
    (hparse : parsesOk pi pt content = true) (hn : n ≤ 0) :
    ReadCache noFault pi pt cc fs pre cursor n =
      Except.ok ((content.filter fun r => keepRec pre cursor r.1).map
        (recFileInfo pi pt)) := by
  rw [ReadCache_content pi pt cc fs pre cursor n content hfile,
    rcLoop_unbounded pi pt pre cursor n hn content 0 hparse]
  rfl

/-- C2 witness: the spec's example — entries b/1, a/1, a/2 (in that file
order), prefix query "a/" — returns exactly a/1 and a/2. -/
theorem C2_readCache_filters_witness :
    ReadCache noFault pi0 pt0 cc0
        (fsWith (getCacheFilePath cc0)
          [("b/1", "1", "t"), ("a/1", "1", "t"), ("a/2", "1", "t")]) "a/" "" 0 =
      Except.ok [NewFileInfo "a/1" false 1 0, NewFileInfo "a/2" false 1 0] := by
  have h := C2_readCache_filters cc0
    (fsWith (getCacheFilePath cc0)
      [("b/1", "1", "t"), ("a/1", "1", "t"), ("a/2", "1", "t")]) pi0 pt0 "a/" "" 0
    [("b/1", "1", "t"), ("a/1", "1", "t"), ("a/2", "1", "t")]
    (by decide) (by decide) (by decide)
  rw [h]
  rfl

/-- C3 counterexample: with limit n = 1 and two matching records, ReadCache
returns 2 results — more than n — because the break condition `count > n` is
checked before the count reaches n + 1. -/
theorem C3_limit_counterexample :
    ReadCache noFault pi0 pt0 cc0
        (fsWith (getCacheFilePath cc0) [("a", "1", "t"), ("b", "1", "t")]) "" "" 1 =
      Except.ok [NewFileInfo "a" false 1 0, NewFileInfo "b" false 1 0] ∧
    ¬ [NewFileInfo "a" false 1 0, NewFileInfo "b" false 1 0].length ≤ 1 := by
  exact ⟨rfl, by decide⟩

/-- C3 (amended): for n > 0, ReadCache returns at most n + 1 matching results
— exactly the first n + 1 matching records of the file (fewer when the file
has fewer matches), because the loop's break check `count > n` lets the
(n+1)-st result through before stopping; for n ≤ 0 it reads to end of file
and returns all matching results. -/
theorem C3_limit_amended (cc : ContainerCache) (fs : FileSys)
    (pi : String → Option Int) (pt : String → Option Nat) (pre cursor : String)
    (n : Int) (content : FileContent)
    (hfile : fs (getCacheFilePath cc) = some content)
    (hparse : parsesOk pi pt content = true) :
    (0 < n → ReadCache noFault pi pt cc fs pre cursor n =
      Except.ok (((content.filter fun r => keepRec pre cursor r.1).map
        (recFileInfo pi pt)).take (n.toNat + 1))) ∧
    (n ≤ 0 → ReadCache noFault pi pt cc fs pre cursor n =
      Except.ok ((content.filter fun r => keepRec pre cursor r.1).map
        (recFileInfo pi pt))) := by
  constructor
  · intro hn
    have hcast : ((n.toNat : Nat) : Int) = n := Int.toNat_of_nonneg (by omega)
    have h2 := rcLoop_bounded pi pt pre cursor n.toNat (by omega) content 0 hparse
    rw [hcast] at h2
    rw [ReadCache_content pi pt cc fs pre cursor n content hfile, h2]
    simp [matchedFI]
  · intro hn
    rw [ReadCache_content pi pt cc fs pre cursor n content hfile,
      rcLoop_unbounded pi pt pre cursor n hn content 0 hparse]
    rfl

/-- C3 witness: the amended statement at limit n = 2 over a two-record file. -/
theorem C3_limit_amended_witness :
    ReadCache noFault pi0 pt0 cc0
        (fsWith (getCacheFilePath cc0) [("a", "1", "t"), ("b", "1", "t")]) "" "" 2 =
      Except.ok (((([("a", "1", "t"), ("b", "1", "t")] : FileContent).filter
          fun r => keepRec "" "" r.1).map (recFileInfo pi0 pt0)).take ((2 : Int).toNat + 1)) :=
  (C3_limit_amended cc0
    (fsWith (getCacheFilePath cc0) [("a", "1", "t"), ("b", "1", "t")]) pi0 pt0 "" "" 2
    [("a", "1", "t"), ("b", "1", "t")] (by decide) (by decide)).1 (by decide)

end AzrBlob
